import Mathlib

/-!
Shallow embedding of the Reviewero addon (a Stremio review addon written in
TypeScript) and proofs of its specification claims.

The repository's logic-bearing modules are embedded as pure Lean functions:
the error taxonomy (`types.ts`), the TMDB response classifier and metadata
resolver (`metadataService`), the Gemini review synthesizer with its JSON
array extraction (`geminiService`), the bounded logging buffer
(`loggingService`), the credential save flow (`ConfigurePage` /
`useApiKeys`), and the protocol stream handler (`StremioHandler`),
including its path regex and its rolling-hash pseudo-identifier.

Asynchronous effects (fetch calls, the Gemini client) are modelled by
passing their outcomes as explicit parameters: a fetch either rejects with
a message, or yields a response carrying an HTTP status and a JSON body
that itself parses or throws.
-/

namespace Reviewero

/-! ## Error taxonomy (src/types.ts)

The TypeScript code uses an `ApiError` class hierarchy.  Each subclass is a
constructor here; `ApiErr.message` reproduces the formatted message each
constructor builds, and `ApiErr.name` the class name (used by
`Error.prototype.toString`).  Every constructor is an `instanceof ApiError`
in the source, which the embedding reflects by all of them living in the
one inductive. -/

inductive ApiErr where
  | ApiError (message : String)
  | InvalidApiKeyError (serviceName : String)
  | NotFoundError (message : String)
  | RateLimitError (serviceName : String)
  | GeminiSafetyError (message : String)
deriving DecidableEq, Repr

def ApiErr.message : ApiErr → String
  | .ApiError m => m
  | .InvalidApiKeyError s =>
      "Invalid API key for " ++ s ++ ". Please check it in the Configuration page."
  | .NotFoundError m => m
  | .RateLimitError s =>
      "Rate limit exceeded for " ++ s ++ ". Please try again later."
  | .GeminiSafetyError m => m

def ApiErr.name : ApiErr → String
  | .ApiError _ => "ApiError"
  | .InvalidApiKeyError _ => "InvalidApiKeyError"
  | .NotFoundError _ => "NotFoundError"
  | .RateLimitError _ => "RateLimitError"
  | .GeminiSafetyError _ => "GeminiSafetyError"

/-- The five-kind classification of the spec's Error Taxonomy: the base
`ApiError` class is the `Generic` kind, each subclass is its own kind. -/
inductive ErrKind where
  | invalidCredential | notFound | rateLimited | contentBlocked | generic
deriving DecidableEq, Repr

def ApiErr.kind : ApiErr → ErrKind
  | .ApiError _ => .generic
  | .InvalidApiKeyError _ => .invalidCredential
  | .NotFoundError _ => .notFound
  | .RateLimitError _ => .rateLimited
  | .GeminiSafetyError _ => .contentBlocked

/-- A fault propagating through JavaScript: either one of the repository's
classified `ApiErr` values, or a raw runtime fault (a fetch rejection, a
JSON parse error, a provider-thrown error) identified by its `toString`. -/
inductive JsErr where
  | api (e : ApiErr)
  | raw (msg : String)
deriving DecidableEq, Repr

/-! ## HTTP responses and the status classifier (metadataService.handleApiResponse) -/

/-- A fetch `Response`: status code plus the outcome of `response.json()`
(`Except.error` models the json parse throwing). -/
structure JsResponse (α : Type) where
  status : Nat
  jsonBody : Except String α
deriving Repr

/-- `Response.ok` — true exactly for statuses 200–299. -/
def JsResponse.ok (r : JsResponse α) : Bool :=
  decide (200 ≤ r.status) && decide (r.status ≤ 299)

/-- A fetch outcome: the promise either rejects or resolves to a response. -/
def FetchOutcome (α : Type) : Type := Except String (JsResponse α)

/-- Embeds `handleApiResponse` from the metadata service: 2xx returns the
parsed json body, otherwise the status is mapped through the error
taxonomy and thrown. -/
def handleApiResponse (r : JsResponse α) (serviceName : String) : Except JsErr α :=
  if r.ok then
    match r.jsonBody with
    | .ok v => .ok v
    | .error m => .error (.raw m)
  else
    .error (.api (
      if r.status = 401 then .InvalidApiKeyError serviceName
      else if r.status = 404 then
        .NotFoundError (serviceName ++ " could not find the requested resource.")
      else if r.status = 429 then .RateLimitError serviceName
      else .ApiError ("An unexpected error occurred with " ++ serviceName ++
        " (Status: " ++ toString r.status ++ ").")))

/-- Lifts a fetch outcome into the error monad: a rejection propagates as a
raw (unclassified) fault, exactly as an un-caught promise rejection does. -/
def liftFetch (f : FetchOutcome α) : Except JsErr (JsResponse α) :=
  match f with
  | .error m => .error (.raw m)
  | .ok r => .ok r

/-! ## Logging service (src/services/loggingService.ts) -/

structure LogEntry where
  timestamp : Nat
  level : String
  message : String
deriving DecidableEq, Repr

/-- The retention bound: `maxLogSize = 200`. -/
def maxLogSize : Nat := 200

/-- The private `log` method's effect on the buffer: push the new entry,
then if the length exceeds `maxLogSize`, keep the final `maxLogSize`
entries (`this.logs.slice(this.logs.length - this.maxLogSize)`). -/
def logOp (logs : List LogEntry) (e : LogEntry) : List LogEntry :=
  let pushed := logs ++ [e]
  if pushed.length > maxLogSize then
    pushed.drop (pushed.length - maxLogSize)
  else
    pushed

def infoOp (logs : List LogEntry) (ts : Nat) (message : String) : List LogEntry :=
  logOp logs ⟨ts, "INFO", message⟩

def debugOp (logs : List LogEntry) (ts : Nat) (message : String) : List LogEntry :=
  logOp logs ⟨ts, "DEBUG", message⟩

def warnOp (logs : List LogEntry) (ts : Nat) (message : String) : List LogEntry :=
  logOp logs ⟨ts, "WARN", message⟩

def errorOp (logs : List LogEntry) (ts : Nat) (message : String) : List LogEntry :=
  logOp logs ⟨ts, "ERROR", message⟩

/-- `getLogs` returns `[...this.logs]`: a fresh array holding the same
entries in the same order. -/
def getLogs (logs : List LogEntry) : List LogEntry := logs

/-! ## Credential save flow (useApiKeys.saveKeys / ConfigurePage.handleSaveAndTest) -/

structure ApiKeys where
  tmdb : String
  tvdb : String
  gemini : String
deriving DecidableEq, Repr

/-- `saveKeys`: writes the keys to localStorage and returns true; if the
write throws (`setItemOk = false`) nothing is stored and it returns false.
The stored state is `Option ApiKeys` (none = nothing stored yet). -/
def saveKeys (stored : Option ApiKeys) (newKeys : ApiKeys) (setItemOk : Bool) :
    Option ApiKeys × Bool :=
  if setItemOk then (some newKeys, true) else (stored, false)

/-- `handleSaveAndTest`'s effect on stored credentials: the three
validation calls run concurrently and are joined; only if all three report
valid is `saveKeys` invoked with the trimmed keys.  Returns the new stored
state and whether the success banner is shown. -/
def handleSaveAndTest (tmdbValid tvdbValid geminiValid : Bool)
    (tmdbKey tvdbKey geminiKey : String)
    (stored : Option ApiKeys) (setItemOk : Bool) : Option ApiKeys × Bool :=
  if tmdbValid && tvdbValid && geminiValid then
    saveKeys stored ⟨tmdbKey.trim, tvdbKey.trim, geminiKey.trim⟩ setItemOk
  else
    (stored, false)

/-! ## Metadata resolver (src/services/metadataService.ts) -/

inductive MediaType where
  | movie | series
deriving DecidableEq, Repr

structure Season where
  season_number : Int
  episode_count : Int
  name : String
deriving DecidableEq, Repr

/-- `MediaMetadata` from `types.ts`; optional fields are `Option`.
`year` is a JavaScript number that can be `NaN` when the date string has
no parseable integer prefix, modelled as `Option Int` with `none = NaN`. -/
structure MediaMetadata where
  tmdbId : Option Int := none
  imdbId : Option String := none
  title : String
  year : Option Int
  overview : String
  mediaType : MediaType
  season : Option Nat := none
  episode : Option Nat := none
  episodeTitle : Option String := none
  cast : Option (List String) := none
  originCountry : Option String := none
  seasons : Option (List Season) := none
deriving DecidableEq, Repr

/-- JavaScript `parseInt(s)` with radix unspecified: skip leading
whitespace, read an optional sign, then (after an optional `0x`/`0X` hex
prefix) the longest run of digits of the radix; `none` models `NaN`. -/
def parseIntJs (s : String) : Option Int :=
  let cs := s.toList.dropWhile (fun c => c = ' ' || c = '\t' || c = '\n' || c = '\r')
  let (sign, cs) : Int × List Char :=
    match cs with
    | '-' :: rest => (-1, rest)
    | '+' :: rest => (1, rest)
    | _ => (1, cs)
  let (base, cs) : Nat × List Char :=
    match cs with
    | '0' :: 'x' :: rest => (16, rest)
    | '0' :: 'X' :: rest => (16, rest)
    | _ => (10, cs)
  let isDigitOf (c : Char) : Bool :=
    if base = 16 then
      c.isDigit || ('a' ≤ c && c ≤ 'f') || ('A' ≤ c && c ≤ 'F')
    else c.isDigit
  let valOf (c : Char) : Nat :=
    if c.isDigit then c.toNat - 48
    else if 'a' ≤ c ∧ c ≤ 'f' then c.toNat - 87
    else c.toNat - 55
  let digits := cs.takeWhile isDigitOf
  if digits.isEmpty then none
  else some (sign * (digits.foldl (fun acc c => acc * base + valOf c) 0 : Nat))

/-- `s.split('-')[0]`: the characters before the first `'-'`. -/
def splitDashHead (s : String) : String :=
  ⟨s.toList.takeWhile (fun c => c ≠ '-')⟩

/-- The year extraction `d ? parseInt(d.split('-')[0]) : 0` used for
`release_date` / `first_air_date`: an absent or empty (falsy) date gives
0, otherwise `parseInt` of the prefix before the first dash. -/
def parseYear (d : Option String) : Option Int :=
  match d with
  | none => some 0
  | some s => if s = "" then some 0 else parseIntJs (splitDashHead s)

structure MovieResult where
  id : Int
  title : String
  release_date : Option String
  overview : String
deriving DecidableEq, Repr

structure TvResult where
  id : Int
  name : String
  first_air_date : Option String
  overview : String
deriving DecidableEq, Repr

structure FindData where
  movie_results : List MovieResult
  tv_results : List TvResult
deriving DecidableEq, Repr

structure EpisodeData where
  overview : String
  name : String
deriving DecidableEq, Repr

/-- JavaScript truthiness of the optional `season`/`episode` numbers:
`undefined` and `0` are falsy. -/
def truthyNat (o : Option Nat) : Bool :=
  match o with
  | none => false
  | some n => decide (n ≠ 0)

/-- Embeds `getMetadata`.  The two network calls are passed as outcomes:
`findF` for the `/find/{imdbId}` lookup and `episodeF` for the
season/episode detail lookup (only consulted when the code performs it).
Mirrors the source: classify the find response; for movies take the first
`movie_results` entry or throw `NotFoundError`; for series take the first
`tv_results` entry or throw `NotFoundError`, and only when `season` and
`episode` are both truthy perform the second lookup and build the
episode-enriched record, otherwise return the series-level record. -/
def getMetadata (mediaType : MediaType) (imdbId : String)
    (season episode : Option Nat)
    (findF : FetchOutcome FindData) (episodeF : FetchOutcome EpisodeData) :
    Except JsErr (Option MediaMetadata) :=
  match liftFetch findF with
  | .error e => .error e
  | .ok fr =>
    match handleApiResponse fr "TMDB" with
    | .error e => .error e
    | .ok findData =>
      match mediaType with
      | .movie =>
        match findData.movie_results with
        | [] =>
          .error (.api (.NotFoundError ("Movie with IMDb ID " ++ imdbId ++ " not found.")))
        | movie :: _ =>
          .ok (some { imdbId := some imdbId, tmdbId := some movie.id,
                      mediaType := .movie, title := movie.title,
                      year := parseYear movie.release_date,
                      overview := movie.overview })
      | .series =>
        match findData.tv_results with
        | [] =>
          .error (.api (.NotFoundError ("Series with IMDb ID " ++ imdbId ++ " not found.")))
        | series :: _ =>
          if truthyNat season && truthyNat episode then
            match liftFetch episodeF with
            | .error e => .error e
            | .ok er =>
              match handleApiResponse er "TMDB" with
              | .error e => .error e
              | .ok episodeData =>
                .ok (some { imdbId := some imdbId, tmdbId := some series.id,
                            mediaType := .series, title := series.name,
                            year := parseYear series.first_air_date,
                            overview := episodeData.overview,
                            season := season, episode := episode,
                            episodeTitle := some episodeData.name })
          else
            .ok (some { imdbId := some imdbId, tmdbId := some series.id,
                        mediaType := .series, title := series.name,
                        year := parseYear series.first_air_date,
                        overview := series.overview })

/-- `movie/{id}` detail body: the per-entry `iso_3166_1` field of
`production_countries` may itself be absent (`Option String`), and the
whole array may be absent. -/
structure MovieDetailsData where
  production_countries : Option (List (Option String))
deriving DecidableEq, Repr

/-- `movie/{id}/credits` body: `cast` (actor names) may be absent. -/
structure CreditsData where
  cast : Option (List String)
deriving DecidableEq, Repr

/-- `detailsData.production_countries?.[0]?.iso_3166_1 || ''`. -/
def originCountryOf (d : MovieDetailsData) : String :=
  match d.production_countries with
  | some (some iso :: _) => iso
  | _ => ""

/-- Embeds `getMovieDetails`: the two fetches run under `Promise.all`
(a rejection of either rejects the whole call); if either response is
non-2xx it degrades to empty cast and empty origin country; otherwise the
bodies are parsed (a json throw rejects) and up to 3 cast names and the
first production country are extracted. -/
def getMovieDetails (detailsF : FetchOutcome MovieDetailsData)
    (creditsF : FetchOutcome CreditsData) :
    Except String (List String × String) :=
  match detailsF, creditsF with
  | .error m, _ => .error m
  | _, .error m => .error m
  | .ok detailsRes, .ok creditsRes =>
    if !detailsRes.ok || !creditsRes.ok then
      .ok ([], "")
    else
      match detailsRes.jsonBody, creditsRes.jsonBody with
      | .error m, _ => .error m
      | _, .error m => .error m
      | .ok detailsData, .ok creditsData =>
        .ok ((creditsData.cast.getD []).take 3, originCountryOf detailsData)

structure SearchData where
  results : List MovieResult
deriving DecidableEq, Repr

/-- The detail-enrichment environment for a title search: the outcomes of
the two secondary fetches for each candidate movie id. -/
def DetailEnv : Type := Int → FetchOutcome MovieDetailsData × FetchOutcome CreditsData

/-- Builds the enriched `MediaMetadata` for a movie search candidate. -/
def mkMovieCandidate (r : MovieResult) (cast : List String) (origin : String) :
    MediaMetadata :=
  { tmdbId := some r.id, mediaType := .movie, title := r.title,
    year := parseYear r.release_date, overview := r.overview,
    cast := some cast, originCountry := some origin }

/-- The `Promise.all(results.map(...))` enrichment loop of `searchByTitle`
for movies: every candidate's `getMovieDetails` must resolve; the first
rejection rejects the whole batch. -/
def mapCandidates (env : DetailEnv) : List MovieResult → Except JsErr (List MediaMetadata)
  | [] => .ok []
  | r :: rs =>
    match getMovieDetails (env r.id).1 (env r.id).2 with
    | .error m => .error (.raw m)
    | .ok (cast, origin) =>
      match mapCandidates env rs with
      | .error e => .error e
      | .ok rest => .ok (mkMovieCandidate r cast origin :: rest)

/-- Embeds the movie branch of `searchByTitle`: classify the search
response, return `[]` on zero results, otherwise enrich every candidate
concurrently and join. -/
def searchByTitleMovies (searchF : FetchOutcome SearchData) (env : DetailEnv) :
    Except JsErr (List MediaMetadata) :=
  match liftFetch searchF with
  | .error e => .error e
  | .ok sr =>
    match handleApiResponse sr "TMDB" with
    | .error e => .error e
    | .ok data =>
      if data.results.isEmpty then
        .ok []
      else
        mapCandidates env data.results

/-! ## JSON values and `JSON.parse` (used by geminiService.extractJsonArray)

JSON values as produced by `JSON.parse`.  Number tokens are kept as their
raw lexeme (their numeric value is never consumed by the repository's
validation, which only asks `typeof p === 'string'` and
`Array.isArray`).  String escapes are decoded to scalar values; the
`\uXXXX` escape is decoded via the code point (surrogate pairs and lone
surrogates, which no claim exercises, are outside this model). -/

inductive Json where
  | null
  | bool (b : Bool)
  | num (raw : String)
  | str (s : String)
  | arr (elems : List Json)
  | obj (fields : List (String × Json))

/-- JSON insignificant whitespace: space, tab, line feed, carriage return. -/
def isJsonWs (c : Char) : Bool :=
  c = ' ' || c = '\t' || c = '\n' || c = '\x0d'

def skipWs (cs : List Char) : List Char :=
  cs.dropWhile isJsonWs

def hexVal (c : Char) : Nat :=
  if c.isDigit then c.toNat - 48
  else if 'a' ≤ c ∧ c ≤ 'f' then c.toNat - 87
  else c.toNat - 55

def isHexDigitJs (c : Char) : Bool :=
  c.isDigit || ('a' ≤ c && c ≤ 'f') || ('A' ≤ c && c ≤ 'F')

/-- Decodes a JSON string body after the opening quote; returns the string
and the remaining input past the closing quote. -/
def parseStringBody : List Char → List Char → Option (String × List Char)
  | [], _ => none
  | '"' :: rest, acc => some (⟨acc.reverse⟩, rest)
  | '\\' :: '"' :: rest, acc => parseStringBody rest ('"' :: acc)
  | '\\' :: '\\' :: rest, acc => parseStringBody rest ('\\' :: acc)
  | '\\' :: '/' :: rest, acc => parseStringBody rest ('/' :: acc)
  | '\\' :: 'b' :: rest, acc => parseStringBody rest (Char.ofNat 8 :: acc)
  | '\\' :: 'f' :: rest, acc => parseStringBody rest (Char.ofNat 12 :: acc)
  | '\\' :: 'n' :: rest, acc => parseStringBody rest ('\n' :: acc)
  | '\\' :: 'r' :: rest, acc => parseStringBody rest (Char.ofNat 13 :: acc)
  | '\\' :: 't' :: rest, acc => parseStringBody rest ('\t' :: acc)
  | '\\' :: 'u' :: a :: b :: c :: d :: rest, acc =>
    if isHexDigitJs a && isHexDigitJs b && isHexDigitJs c && isHexDigitJs d then
      parseStringBody rest
        (Char.ofNat (((hexVal a * 16 + hexVal b) * 16 + hexVal c) * 16 + hexVal d) :: acc)
    else none
  | '\\' :: _, _ => none
  | c :: rest, acc =>
    if c.toNat < 32 then none else parseStringBody rest (c :: acc)

/-- Lexes a JSON number token (`-? int frac? exp?`), returning its raw
lexeme and the remaining input. -/
def parseNumberTok (cs : List Char) : Option (String × List Char) :=
  let (sign, cs1) : List Char × List Char :=
    match cs with
    | '-' :: r => (['-'], r)
    | _ => ([], cs)
  let intPart : Option (List Char × List Char) :=
    match cs1 with
    | '0' :: r => some (['0'], r)
    | c :: r =>
      if c.isDigit then
        some (c :: r.takeWhile Char.isDigit, r.dropWhile Char.isDigit)
      else none
    | [] => none
  match intPart with
  | none => none
  | some (ip, cs2) =>
    let fracPart : Option (List Char × List Char) :=
      match cs2 with
      | '.' :: r =>
        let ds := r.takeWhile Char.isDigit
        if ds.isEmpty then none else some ('.' :: ds, r.dropWhile Char.isDigit)
      | _ => some ([], cs2)
    match fracPart with
    | none => none
    | some (fp, cs3) =>
      let expPart : Option (List Char × List Char) :=
        match cs3 with
        | e :: r =>
          if e = 'e' || e = 'E' then
            let (sg, r1) : List Char × List Char :=
              match r with
              | '+' :: r2 => (['+'], r2)
              | '-' :: r2 => (['-'], r2)
              | _ => ([], r)
            let ds := r1.takeWhile Char.isDigit
            if ds.isEmpty then none
            else some (e :: (sg ++ ds), r1.dropWhile Char.isDigit)
          else some ([], cs3)
        | [] => some ([], cs3)
      match expPart with
      | none => none
      | some (ep, cs4) => some (⟨sign ++ ip ++ fp ++ ep⟩, cs4)

mutual

/-- Parses one JSON value at the head of the input (leading whitespace
already skipped); fuel bounds recursion depth and list iteration. -/
def parseValue : Nat → List Char → Option (Json × List Char)
  | 0, _ => none
  | _ + 1, 'n' :: 'u' :: 'l' :: 'l' :: rest => some (.null, rest)
  | _ + 1, 't' :: 'r' :: 'u' :: 'e' :: rest => some (.bool true, rest)
  | _ + 1, 'f' :: 'a' :: 'l' :: 's' :: 'e' :: rest => some (.bool false, rest)
  | _ + 1, '"' :: rest =>
    match parseStringBody rest [] with
    | some (s, r) => some (.str s, r)
    | none => none
  | fuel + 1, '[' :: rest =>
    match skipWs rest with
    | ']' :: r2 => some (.arr [], r2)
    | cs2 => parseElems fuel cs2 []
  | fuel + 1, '{' :: rest =>
    match skipWs rest with
    | '}' :: r2 => some (.obj [], r2)
    | cs2 => parseMembers fuel cs2 []
  | _ + 1, cs =>
    match parseNumberTok cs with
    | some (tok, r) => some (.num tok, r)
    | none => none

/-- Parses the remaining elements of a non-empty JSON array (whitespace
before the next value already skipped). -/
def parseElems : Nat → List Char → List Json → Option (Json × List Char)
  | 0, _, _ => none
  | fuel + 1, cs, acc =>
    match parseValue fuel cs with
    | none => none
    | some (v, rest) =>
      match skipWs rest with
      | ',' :: r2 => parseElems fuel (skipWs r2) (v :: acc)
      | ']' :: r2 => some (.arr (v :: acc).reverse, r2)
      | _ => none

/-- Parses the remaining members of a non-empty JSON object (whitespace
before the next key already skipped). -/
def parseMembers : Nat → List Char → List (String × Json) → Option (Json × List Char)
  | 0, _, _ => none
  | fuel + 1, cs, acc =>
    match cs with
    | '"' :: rest =>
      match parseStringBody rest [] with
      | none => none
      | some (k, r1) =>
        match skipWs r1 with
        | ':' :: r2 =>
          match parseValue fuel (skipWs r2) with
          | none => none
          | some (v, r3) =>
            match skipWs r3 with
            | ',' :: r4 => parseMembers fuel (skipWs r4) ((k, v) :: acc)
            | '}' :: r4 => some (.obj ((k, v) :: acc).reverse, r4)
            | _ => none
        | _ => none
    | _ => none

end

/-- `JSON.parse`: optional surrounding whitespace around a single value;
anything left over is a syntax error (`none` models the throw).  The fuel
`2 * length + 4` dominates the recursion depth, which advances past at
least one input character every two fuel steps. -/
def jsonParse (s : String) : Option Json :=
  let cs := skipWs s.toList
  match parseValue (2 * cs.length + 4) cs with
  | some (v, rest) => if (skipWs rest).isEmpty then some v else none
  | none => none

/-! ## Review synthesizer (src/services/geminiService.ts) -/

/-- `text.indexOf(c)` as an optional index. -/
def firstIdxOf (cs : List Char) (c : Char) : Option Nat :=
  cs.findIdx? (fun x => x = c)

/-- `text.lastIndexOf(c)` as an optional index. -/
def lastIdxOf (cs : List Char) (c : Char) : Option Nat :=
  match (cs.reverse).findIdx? (fun x => x = c) with
  | some r => some (cs.length - 1 - r)
  | none => none

/-- Embeds `extractJsonArray`: locate the first `'['` and the last `']'`;
if either is missing or they are inverted return `null`; otherwise
`JSON.parse` the inclusive substring and return it only if it is an
array. -/
def extractJsonArray (text : String) : Option (List Json) :=
  let cs := text.toList
  match firstIdxOf cs '[', lastIdxOf cs ']' with
  | some startIndex, some endIndex =>
    if endIndex < startIndex then none
    else
      let jsonString : String := ⟨(cs.drop startIndex).take (endIndex + 1 - startIndex)⟩
      match jsonParse jsonString with
      | some (.arr elems) => some elems
      | _ => none
  | _, _ => none

/-- `typeof p === 'string'` on a parsed JSON value. -/
def isJsonString : Json → Bool
  | .str _ => true
  | _ => false

def jsonStrVal : Json → String
  | .str s => s
  | _ => ""

/-- The outcome of `ai.models.generateContent`: the promise rejects with a
provider fault (identified by its `toString`), or resolves with some
number of candidates and the response text. -/
inductive GeminiOutcome where
  | threw (msg : String)
  | returned (candidates : Nat) (text : String)
deriving DecidableEq, Repr

/-- `Error.prototype.toString` for the faults the synthesizer can catch:
classified errors render as `name: message`; raw provider faults are
identified by their own `toString`. -/
def jsErrToString : JsErr → String
  | .api e => e.name ++ ": " ++ e.message
  | .raw m => m

def toLowerJs (s : String) : String := ⟨s.toList.map Char.toLower⟩

def containsSubstrList : List Char → List Char → Bool
  | hay, pat =>
    if pat.isPrefixOf hay then true
    else
      match hay with
      | [] => false
      | _ :: tl => containsSubstrList tl pat

/-- `errorMessage.includes(pat)`. -/
def containsSubstr (s pat : String) : Bool :=
  containsSubstrList s.toList pat.toList

/-- The `catch` block of `generateReview`: inspect the lowercased
`toString` for credential and quota/rate-limit markers, rethrow anything
that is already an `ApiError` (including `GeminiSafetyError`) unchanged,
and wrap everything else as a generic `ApiError`. -/
def geminiCatch (e : JsErr) : ApiErr :=
  let errorMessage := toLowerJs (jsErrToString e)
  if containsSubstr errorMessage "api key not valid" then
    .InvalidApiKeyError "Gemini"
  else if containsSubstr errorMessage "quota" || containsSubstr errorMessage "rate limit" then
    .RateLimitError "Gemini"
  else
    match e with
    | .api a => a
    | .raw _ => .ApiError "An unexpected error occurred while generating the review."

/-- Whitespace removed by `String.prototype.trim`: space, tab, line and
form feeds, carriage return, vertical tab (ASCII range; the exotic
Unicode spaces JavaScript also strips never arise here). -/
def isJsWs (c : Char) : Bool :=
  c = ' ' || c = '\t' || c = '\n' || c = '\x0d' || c = '\x0b' || c = '\x0c'

/-- `text.trim()`. -/
def trimJs (s : String) : String :=
  ⟨((s.toList.dropWhile isJsWs).reverse.dropWhile isJsWs).reverse⟩

/-- The validation `reviewPoints && reviewPoints.every(p => typeof p ===
'string')` together with its two failure branches. -/
def validateReviewPoints (reviewPoints : Option (List Json)) :
    Except JsErr (List String) :=
  match reviewPoints with
  | some pts =>
    if pts.all isJsonString then
      .ok (pts.map jsonStrVal)
    else
      .error (.api (.ApiError "Gemini did not return a valid array of strings."))
  | none =>
    .error (.api (.ApiError "Gemini did not return a valid array of strings."))

/-- The `try` block of `generateReview`: zero candidates throws
`GeminiSafetyError`, the trimmed response text goes through
`extractJsonArray`, and the parsed array must be all strings. -/
def generateReviewTry (outcome : GeminiOutcome) : Except JsErr (List String) :=
  match outcome with
  | .threw msg => .error (.raw msg)
  | .returned candidates text =>
    if candidates = 0 then
      .error (.api (.GeminiSafetyError
        "Review generation was blocked. The content might be sensitive."))
    else
      validateReviewPoints (extractJsonArray (trimJs text))

/-- Embeds `generateReview` (prompt construction elided — it does not
affect the returned value).  A falsy (empty) key throws
`InvalidApiKeyError` before the `try`; every fault raised inside the
`try` body is reclassified by the `catch` (`geminiCatch`). -/
def generateReview (geminiApiKey : String) (outcome : GeminiOutcome) :
    Except ApiErr (List String) :=
  if geminiApiKey = "" then
    .error (.InvalidApiKeyError "Gemini (key not provided)")
  else
    match generateReviewTry outcome with
    | .ok v => .ok v
    | .error e => .error (geminiCatch e)

/-! ## Protocol stream handler (src/pages/StremioHandler.tsx)

The path pattern is the regex
`\/stream\/(movie|series)\/(tt\d+)(?::(\d+):(\d+))?\.json`, unanchored,
with `match` returning the leftmost match.  Because every `\d+` in the
pattern is followed by a non-digit literal (`:` or `.`), greedy maximal
munch never needs to backtrack inside a digit run, so the deterministic
matcher below is equivalent to the backtracking regex engine; the one
genuine choice point, the optional `(?::(\d+):(\d+))?` group, is tried
with the group first and then without, exactly as the engine does. -/

/-- Matches a literal character sequence at the head of the input. -/
def dropLit : List Char → List Char → Option (List Char)
  | [], cs => some cs
  | p :: ps, c :: cs => if c = p then dropLit ps cs else none
  | _ :: _, [] => none

/-- One attempt of the stream-path regex anchored at the head of the
input; on success returns the captures
`(kind, externalId, season?, episode?)`. -/
def matchAt (cs : List Char) : Option (String × String × Option String × Option String) :=
  match dropLit "/stream/".toList cs with
  | none => none
  | some cs1 =>
    let kindOpt : Option (String × List Char) :=
      match dropLit "movie".toList cs1 with
      | some r => some ("movie", r)
      | none =>
        match dropLit "series".toList cs1 with
        | some r => some ("series", r)
        | none => none
    match kindOpt with
    | none => none
    | some (kind, cs2) =>
      match cs2 with
      | '/' :: cs3 =>
        match dropLit "tt".toList cs3 with
        | none => none
        | some cs4 =>
          let ds := cs4.takeWhile Char.isDigit
          if ds.isEmpty then none
          else
            let imdbId : String := ⟨'t' :: 't' :: ds⟩
            let cs5 := cs4.dropWhile Char.isDigit
            let withGroup : Option (String × String) :=
              match cs5 with
              | ':' :: r1 =>
                let s1 := r1.takeWhile Char.isDigit
                if s1.isEmpty then none
                else
                  match r1.dropWhile Char.isDigit with
                  | ':' :: r2 =>
                    let s2 := r2.takeWhile Char.isDigit
                    if s2.isEmpty then none
                    else
                      match dropLit ".json".toList (r2.dropWhile Char.isDigit) with
                      | some _ => some (⟨s1⟩, ⟨s2⟩)
                      | none => none
                  | _ => none
              | _ => none
            match withGroup with
            | some (s1, s2) => some (kind, imdbId, some s1, some s2)
            | none =>
              match dropLit ".json".toList cs5 with
              | some _ => some (kind, imdbId, none, none)
              | none => none
      | _ => none

/-- Leftmost-match scan over every start position. -/
def scanMatch : List Char → Option (String × String × Option String × Option String)
  | [] => none
  | cs@(_ :: tl) =>
    match matchAt cs with
    | some r => some r
    | none => scanMatch tl

/-- `pathname.match(/\/stream\/(movie|series)\/(tt\d+)(?::(\d+):(\d+))?\.json/)`. -/
def regexMatchStream (pathname : String) :
    Option (String × String × Option String × Option String) :=
  scanMatch pathname.toList

/-! ### The rolling-hash pseudo-identifier -/

/-- JavaScript `| 0`: reduce to a signed 32-bit integer. -/
def toInt32 (n : Int) : Int :=
  let m := n % 4294967296
  if m < 2147483648 then m else m - 4294967296

/-- One reduction step: `(hash * 31 + char.charCodeAt(0)) | 0`. -/
def hashStep (h : Int) (c : Char) : Int :=
  toInt32 (h * 31 + (c.toNat : Int))

/-- `Array.from(s).reduce((hash, char) => (hash * 31 + char.charCodeAt(0)) | 0, 0)`. -/
def rollingHash (s : String) : Int :=
  s.toList.foldl hashStep 0

def hexDigitChar (n : Nat) : Char :=
  if n < 10 then Char.ofNat (48 + n) else Char.ofNat (87 + n)

def natToHexAux : Nat → Nat → List Char → List Char
  | 0, _, acc => acc
  | fuel + 1, n, acc =>
    if n = 0 then acc else natToHexAux fuel (n / 16) (hexDigitChar (n % 16) :: acc)

/-- Lowercase base-16 rendering of a natural number (`Number.toString(16)`
for non-negative integers). -/
def natToHex (n : Nat) : String :=
  if n = 0 then "0" else ⟨natToHexAux n n []⟩

/-- `Number.prototype.toString(16)` on a 32-bit integer: negative values
render as a minus sign followed by the hex digits of the absolute value. -/
def intToHexJs (i : Int) : String :=
  if i < 0 then "-" ++ natToHex i.natAbs else natToHex i.toNat

/-- `s.padStart(n, '0')`. -/
def padStartZero (s : String) (n : Nat) : String :=
  ⟨List.replicate (n - s.length) '0' ++ s.toList⟩

/-- `s.slice(0, n)`. -/
def sliceTo (s : String) (n : Nat) : String :=
  ⟨s.toList.take n⟩

/-- The pseudo-identifier: rolling hash of the concatenated request
parts, rendered in hex, zero-padded to 40 and truncated to 40. -/
def infoHashOf (s : String) : String :=
  sliceTo (padStartZero (intToHexJs (rollingHash s)) 40) 40

/-! ### The handler -/

structure StreamEntry where
  name : String
  title : String
  infoHash : Option String := none
  notPlayable : Bool
deriving DecidableEq, Repr

structure StremioResponse where
  streams : List StreamEntry
deriving DecidableEq, Repr

/-- `createErrorStream`: the fixed single-entry descriptor with the
not-playable marker. -/
def createErrorStream (message : String) : StremioResponse :=
  ⟨[{ name := "Error", title := message, notPlayable := true }]⟩

/-- `error instanceof ApiError ? error.message : "An unknown error occurred."`. -/
def caughtMessage : JsErr → String
  | .api e => e.message
  | .raw _ => "An unknown error occurred."

/-- `reviewPoints.join('\n')`. -/
def joinNewline : List String → String
  | [] => ""
  | [x] => x
  | x :: xs => x ++ "\n" ++ joinNewline xs

/-- The environment of one `handleRequest` run: the hook state and the
outcomes of the two awaited calls (only consulted when the code reaches
them). -/
structure HandlerEnv where
  isReady : Bool
  areKeysSetup : Bool
  metadataResult : Except JsErr (Option MediaMetadata)
  reviewResult : Except JsErr (List String)

/-- `pathname.startsWith(pre)`. -/
def startsWithJs (s pre : String) : Bool :=
  pre.toList.isPrefixOf s.toList

/-- Embeds `handleRequest` of `StremioHandler`: `none` models runs that
set no response (non-stream paths and the not-yet-ready hook); otherwise
the produced descriptor.  The `try` block's faults surface through
`caughtMessage`; a malformed path (no regex match) yields the fixed
invalid-format descriptor. -/
def handleRequest (pathname : String) (env : HandlerEnv) : Option StremioResponse :=
  if !(startsWithJs pathname "/stream/") then none
  else if !env.isReady then none
  else if !env.areKeysSetup then
    some (createErrorStream "API keys not configured. Please configure the addon.")
  else
    match regexMatchStream pathname with
    | none => some (createErrorStream "Invalid request format.")
    | some (_kind, imdbId, seasonStr, episodeStr) =>
      match env.metadataResult with
      | .error e => some (createErrorStream (caughtMessage e))
      | .ok none => some (createErrorStream "Metadata not found for this item.")
      | .ok (some _metadata) =>
        match env.reviewResult with
        | .error e => some (createErrorStream (caughtMessage e))
        | .ok reviewPoints =>
          if reviewPoints.isEmpty then
            some (createErrorStream "Could not generate review for this item.")
          else
            some ⟨[{ name := "Gemini Review ✨",
                     title := joinNewline reviewPoints,
                     infoHash := some (infoHashOf
                       (imdbId ++ seasonStr.getD "" ++ episodeStr.getD "")),
                     notPlayable := true }]⟩

/-! ## Theorems -/

/-- C6: for every catalog-service response with a non-2xx status, the
classified error is determined solely by the status code — 401 yields
`InvalidApiKeyError` (kind `InvalidCredential`), 404 `NotFoundError`
(kind `NotFound`), 429 `RateLimitError` (kind `RateLimited`), and any
other non-success status the base `ApiError` (kind `Generic`). -/
theorem handleApiResponse_status_classification (α : Type) (r : JsResponse α)
    (name : String) (h : r.ok = false) :
    (r.status = 401 →
      handleApiResponse r name = .error (.api (.InvalidApiKeyError name)) ∧
      (ApiErr.InvalidApiKeyError name).kind = .invalidCredential) ∧
    (r.status = 404 →
      handleApiResponse r name =
        .error (.api (.NotFoundError (name ++ " could not find the requested resource."))) ∧
      (ApiErr.NotFoundError (name ++ " could not find the requested resource.")).kind
        = .notFound) ∧
    (r.status = 429 →
      handleApiResponse r name = .error (.api (.RateLimitError name)) ∧
      (ApiErr.RateLimitError name).kind = .rateLimited) ∧
    (r.status ≠ 401 → r.status ≠ 404 → r.status ≠ 429 →
      handleApiResponse r name =
        .error (.api (.ApiError ("An unexpected error occurred with " ++ name ++
          " (Status: " ++ toString r.status ++ ").")))  ∧
      (ApiErr.ApiError ("An unexpected error occurred with " ++ name ++
          " (Status: " ++ toString r.status ++ ").")).kind = .generic) := by
  refine ⟨fun h1 => ?_, fun h4 => ?_, fun h9 => ?_, fun n1 n4 n9 => ?_⟩
  · simp [handleApiResponse, h, h1, ApiErr.kind]
  · simp [handleApiResponse, h, h4, ApiErr.kind]
  · simp [handleApiResponse, h, h9, ApiErr.kind]
  · simp [handleApiResponse, h, n1, n4, n9, ApiErr.kind]

/-- C6 witness: a 404 from the catalog service classifies as
`NotFoundError`. -/
theorem handleApiResponse_status_classification_witness :
    handleApiResponse (⟨404, Except.ok 0⟩ : JsResponse Nat) "TMDB" =
      .error (.api (.NotFoundError ("TMDB" ++ " could not find the requested resource."))) :=
  ((handleApiResponse_status_classification Nat ⟨404, Except.ok 0⟩ "TMDB" rfl).2.1 rfl).1

/-- C9: the configuration save is all-or-nothing — if any of the three
concurrent validation calls reports invalid, the stored credentials are
unchanged and no success is shown; the trimmed keys are persisted exactly
when all three are valid and the storage write succeeds; and even then a
failing storage write leaves the stored credentials unchanged. -/
theorem handleSaveAndTest_all_or_nothing (tmdbValid tvdbValid geminiValid : Bool)
    (tmdbKey tvdbKey geminiKey : String) (stored : Option ApiKeys) (setItemOk : Bool) :
    ((tmdbValid && tvdbValid && geminiValid) = false →
      handleSaveAndTest tmdbValid tvdbValid geminiValid
        tmdbKey tvdbKey geminiKey stored setItemOk = (stored, false)) ∧
    ((tmdbValid && tvdbValid && geminiValid) = true → setItemOk = true →
      handleSaveAndTest tmdbValid tvdbValid geminiValid
        tmdbKey tvdbKey geminiKey stored setItemOk =
        (some ⟨tmdbKey.trim, tvdbKey.trim, geminiKey.trim⟩, true)) ∧
    ((tmdbValid && tvdbValid && geminiValid) = true → setItemOk = false →
      handleSaveAndTest tmdbValid tvdbValid geminiValid
        tmdbKey tvdbKey geminiKey stored setItemOk = (stored, false)) := by
  refine ⟨fun hv => ?_, fun hv hw => ?_, fun hv hw => ?_⟩
  · simp [handleSaveAndTest, hv]
  · simp [handleSaveAndTest, saveKeys, hv, hw]
  · simp [handleSaveAndTest, saveKeys, hv, hw]

/-- C9 witness: with the TVDB validation failing, the stored credentials
stay as they were. -/
theorem handleSaveAndTest_all_or_nothing_witness :
    handleSaveAndTest true false true "a" "b" "c"
      (some ⟨"x", "y", "z"⟩) true = (some ⟨"x", "y", "z"⟩, false) :=
  (handleSaveAndTest_all_or_nothing true false true "a" "b" "c"
    (some ⟨"x", "y", "z"⟩) true).1 rfl

/-- C10: every logging operation keeps the buffer at 200 entries or
fewer; the buffer after an append is exactly the most recent entries of
the pushed list (all of them when the bound is not exceeded, else the
final 200); `getLogs` returns the buffer's entries unchanged; and each of
`info`, `debug`, `warn`, `error` is the shared append with its level. -/
theorem loggingService_bounded_buffer (logs : List LogEntry) (e : LogEntry)
    (ts : Nat) (msg : String) :
    (logOp logs e).length ≤ 200 ∧
    logOp logs e = (logs ++ [e]).drop ((logs.length + 1) - maxLogSize) ∧
    getLogs (logOp logs e) = logOp logs e ∧
    infoOp logs ts msg = logOp logs ⟨ts, "INFO", msg⟩ ∧
    debugOp logs ts msg = logOp logs ⟨ts, "DEBUG", msg⟩ ∧
    warnOp logs ts msg = logOp logs ⟨ts, "WARN", msg⟩ ∧
    errorOp logs ts msg = logOp logs ⟨ts, "ERROR", msg⟩ := by
  have hpush : (logs ++ [e]).length = logs.length + 1 := by simp
  have hEq : logOp logs e =
      if (logs ++ [e]).length > 200 then
        (logs ++ [e]).drop ((logs ++ [e]).length - 200)
      else logs ++ [e] := rfl
  refine ⟨?_, ?_, rfl, rfl, rfl, rfl, rfl⟩ <;>
    by_cases hgt : (logs ++ [e]).length > 200
  · rw [hEq, if_pos hgt]
    simp only [List.length_drop]
    omega
  · rw [hEq, if_neg hgt]
    omega
  · rw [hEq, if_pos hgt]
    have hidx : (logs ++ [e]).length - 200 = logs.length + 1 - maxLogSize := by
      unfold maxLogSize
      omega
    rw [hidx]
  · rw [hEq, if_neg hgt]
    have h0 : logs.length + 1 - maxLogSize = 0 := by
      unfold maxLogSize
      omega
    rw [h0, List.drop_zero]

/-- C2: whenever the model call completes with zero candidate
completions (and the key check before the `try` was passed), the
synthesizer fails with `GeminiSafetyError` — kind `ContentBlocked`, never
`Generic` — and the safety classification passes through the
catch-and-reclassify logic unchanged. -/
theorem generateReview_zero_candidates_contentBlocked (geminiApiKey text : String)
    (h : geminiApiKey ≠ "") :
    generateReview geminiApiKey (.returned 0 text) =
      .error (.GeminiSafetyError
        "Review generation was blocked. The content might be sensitive.") ∧
    (ApiErr.GeminiSafetyError
      "Review generation was blocked. The content might be sensitive.").kind
        = .contentBlocked ∧
    (ApiErr.GeminiSafetyError
      "Review generation was blocked. The content might be sensitive.").kind
        ≠ .generic := by
  refine ⟨?_, rfl, by decide⟩
  unfold generateReview
  rw [if_neg h]
  rfl

/-- C2 witness: a zero-candidate completion under a concrete key fails
with `GeminiSafetyError`. -/
theorem generateReview_zero_candidates_contentBlocked_witness :
    generateReview "k" (.returned 0 "") =
      .error (.GeminiSafetyError
        "Review generation was blocked. The content might be sensitive.") :=
  (generateReview_zero_candidates_contentBlocked "k" "" (by decide)).1

/-- C5: once the handler is past the readiness and key-configuration
guards, every `/stream/` path the pattern does not match yields the fixed
single-entry "Invalid request format." descriptor (which carries the
not-playable marker), and the handler, a total function, lets no fault
escape; the concrete malformed path missing the `tt` id indeed fails the
pattern. -/
theorem stremioHandler_malformed_path_fixed_descriptor :
    (∀ (pathname : String) (env : HandlerEnv),
      startsWithJs pathname "/stream/" = true →
      env.isReady = true →
      env.areKeysSetup = true →
      regexMatchStream pathname = none →
      handleRequest pathname env =
        some (createErrorStream "Invalid request format.")) ∧
    regexMatchStream "/stream/movie/123.json" = none ∧
    (createErrorStream "Invalid request format.").streams =
      [{ name := "Error", title := "Invalid request format.",
         infoHash := none, notPlayable := true }] := by
  refine ⟨fun pathname env h1 h2 h3 h4 => ?_, rfl, rfl⟩
  simp [handleRequest, h1, h2, h3, h4]

/-- C5 witness: the malformed path with a bare numeric id produces the
invalid-format descriptor. -/
theorem stremioHandler_malformed_path_fixed_descriptor_witness :
    handleRequest "/stream/movie/123.json"
      ⟨true, true, Except.ok none, Except.ok []⟩ =
      some (createErrorStream "Invalid request format.") :=
  stremioHandler_malformed_path_fixed_descriptor.1 "/stream/movie/123.json"
    ⟨true, true, Except.ok none, Except.ok []⟩ (by rfl) rfl rfl
    stremioHandler_malformed_path_fixed_descriptor.2.1

/-- C3: JSON-array extraction parses the substring from the first
bracket to the last bracket inclusive — it returns the clean array on
already-clean input and on input wrapped in commentary; with no bracket
pair it returns `null`; and whenever extraction yields no array of
strings (no brackets, non-array JSON, or a non-string element), the
synthesizer fails with the `Generic` classified "did not return a valid
array of strings" error rather than an unclassified fault. -/
theorem extractJsonArray_extraction_and_failure :
    extractJsonArray "[\"a\",\"b\"]" = some [.str "a", .str "b"] ∧
    extractJsonArray "noise [ \"a\", \"b\" ] trailing" = some [.str "a", .str "b"] ∧
    (∀ text : String,
      (firstIdxOf text.toList '[' = none ∨ lastIdxOf text.toList ']' = none) →
      extractJsonArray text = none) ∧
    (∀ (geminiApiKey : String) (n : Nat) (text : String),
      geminiApiKey ≠ "" → n ≠ 0 →
      (extractJsonArray (trimJs text) = none ∨
        ∃ elems, extractJsonArray (trimJs text) = some elems ∧
          elems.all isJsonString = false) →
      generateReview geminiApiKey (.returned n text) =
        .error (.ApiError "Gemini did not return a valid array of strings.") ∧
      (ApiErr.ApiError "Gemini did not return a valid array of strings.").kind
        = .generic) := by
  refine ⟨rfl, rfl, fun text h => ?_, fun geminiApiKey n text hk hn h => ⟨?_, rfl⟩⟩
  · rcases hf : firstIdxOf text.toList '[' with _ | si
    · simp only [extractJsonArray, hf]
    · rcases hl : lastIdxOf text.toList ']' with _ | ei
      · simp only [extractJsonArray, hf, hl]
      · rw [hf, hl] at h
        rcases h with h | h <;> simp at h
  · have hTry : generateReviewTry (.returned n text) =
        .error (.api (.ApiError "Gemini did not return a valid array of strings.")) := by
      simp only [generateReviewTry]
      rw [if_neg hn]
      rcases h with h | ⟨elems, he, hall⟩
      · rw [h]
        rfl
      · rw [he]
        simp [validateReviewPoints, hall]
    unfold generateReview
    rw [if_neg hk, hTry]
    rfl

/-- C3 witness: bracket-free response text makes the synthesizer fail
with the generic invalid-array error. -/
theorem extractJsonArray_extraction_and_failure_witness :
    generateReview "k" (.returned 1 "no brackets here") =
      .error (.ApiError "Gemini did not return a valid array of strings.") :=
  (extractJsonArray_extraction_and_failure.2.2.2 "k" 1 "no brackets here"
    (by decide) (by decide) (Or.inl rfl)).1

/-- C1 counterexample: the synthesizer returns success for the response
text `["a"]`, a homogeneous array of strings with a single (non-empty)
entry — fewer than 8 — so a result with fewer than 8 non-empty strings
IS returned as success, contrary to the claim. -/
theorem generateReview_short_success_counterexample :
    generateReview "k" (.returned 1 "[\"a\"]") = .ok ["a"] ∧
    ¬ 8 ≤ (["a"] : List String).length :=
  ⟨by rfl, by decide⟩

/-- C1 amended: on success the synthesizer returns the parsed JSON array
verbatim, every element of which is a string (homogeneity holds), but no
minimum count of 8 entries and no non-emptiness of entries is enforced on
output. -/
theorem generateReview_success_verbatim_strings (geminiApiKey : String)
    (n : Nat) (text : String) (pts : List String)
    (h : generateReview geminiApiKey (.returned n text) = .ok pts) :
    ∃ elems, extractJsonArray (trimJs text) = some elems ∧
      elems.all isJsonString = true ∧ pts = elems.map jsonStrVal := by
  unfold generateReview at h
  by_cases hk : geminiApiKey = ""
  · rw [if_pos hk] at h
    exact absurd h (by simp)
  · rw [if_neg hk] at h
    cases hT : generateReviewTry (.returned n text) with
    | error e => rw [hT] at h; simp at h
    | ok v =>
      rw [hT] at h
      simp only [Except.ok.injEq] at h
      simp only [generateReviewTry] at hT
      by_cases hn : n = 0
      · rw [if_pos hn] at hT; simp at hT
      · rw [if_neg hn] at hT
        cases hE : extractJsonArray (trimJs text) with
        | none => rw [hE] at hT; simp [validateReviewPoints] at hT
        | some elems =>
          rw [hE] at hT
          simp only [validateReviewPoints] at hT
          by_cases hall : elems.all isJsonString = true
          · rw [if_pos hall] at hT
            simp only [Except.ok.injEq] at hT
            exact ⟨elems, rfl, hall, by rw [← h, ← hT]⟩
          · rw [if_neg hall] at hT
            simp at hT

/-- C1 amended witness: a concrete one-element success is the verbatim
parsed array of strings. -/
theorem generateReview_success_verbatim_strings_witness :
    ∃ elems, extractJsonArray (trimJs "[\"a\"]") = some elems ∧
      elems.all isJsonString = true ∧ ["a"] = elems.map jsonStrVal :=
  generateReview_success_verbatim_strings "k" 1 "[\"a\"]" ["a"] (by rfl)

/-- C4 counterexample: when a candidate's secondary detail lookup fails
by a thrown transport rejection (not a non-2xx response), the rejection
propagates through the joined enrichment batch and the whole search
fails — the candidate is not returned with empty enrichment. -/
theorem searchByTitle_thrown_lookup_fails_search :
    searchByTitleMovies
      (Except.ok ⟨200, Except.ok ⟨[⟨1, "M", some "2000-01-01", "ov"⟩]⟩⟩)
      (fun _ => (Except.error "network error", Except.ok ⟨200, Except.ok ⟨none⟩⟩)) =
      .error (.raw "network error") := by
  rfl

/-- C4 amended: when the secondary detail lookup completes with HTTP
responses and either is non-2xx, the enrichment degrades to empty cast
and empty origin country, and the candidate is still returned — the
search succeeds; only a thrown rejection fails the search. -/
theorem searchByTitle_non2xx_enrichment_degrades
    (dr : JsResponse MovieDetailsData) (cr : JsResponse CreditsData)
    (h : dr.ok = false ∨ cr.ok = false) :
    getMovieDetails (.ok dr) (.ok cr) = .ok ([], "") ∧
    (∀ (sr : JsResponse SearchData) (sdata : SearchData) (r : MovieResult)
       (env : DetailEnv),
      sr.ok = true → sr.jsonBody = .ok sdata → sdata.results = [r] →
      env r.id = (.ok dr, .ok cr) →
      searchByTitleMovies (.ok sr) env = .ok [mkMovieCandidate r [] ""]) := by
  have h1 : getMovieDetails (.ok dr) (.ok cr) = .ok ([], "") := by
    rcases h with h | h <;> simp [getMovieDetails, h]
  refine ⟨h1, fun sr sdata r env hok hbody hres henv => ?_⟩
  have h2 : handleApiResponse sr "TMDB" = (.ok sdata : Except JsErr SearchData) := by
    simp [handleApiResponse, hok, hbody]
  have h3 : mapCandidates env [r] = .ok [mkMovieCandidate r [] ""] := by
    simp only [mapCandidates, henv, h1]
  simp only [searchByTitleMovies, liftFetch, h2, hres, h3, List.isEmpty_cons,
    Bool.false_eq_true, if_false]

/-- C4 amended witness: a concrete 404 on the details call leaves the
candidate in the results with empty cast and country. -/
theorem searchByTitle_non2xx_enrichment_degrades_witness :
    searchByTitleMovies
      (Except.ok ⟨200, Except.ok ⟨[⟨7, "M", none, "ov"⟩]⟩⟩)
      (fun _ => (Except.ok ⟨404, Except.ok ⟨none⟩⟩, Except.ok ⟨200, Except.ok ⟨none⟩⟩)) =
      .ok [mkMovieCandidate ⟨7, "M", none, "ov"⟩ [] ""] :=
  (searchByTitle_non2xx_enrichment_degrades ⟨404, Except.ok ⟨none⟩⟩ ⟨200, Except.ok ⟨none⟩⟩
    (Or.inl rfl)).2 ⟨200, Except.ok ⟨[⟨7, "M", none, "ov"⟩]⟩⟩ ⟨[⟨7, "M", none, "ov"⟩]⟩
    ⟨7, "M", none, "ov"⟩ _ rfl rfl rfl rfl

/-- C8: resolving a series identifier with season/episode unset returns
the series-level record — series title, year and overview, with no
season, episode, or episodeTitle — rather than failing; and when both
season and episode are supplied (non-zero), the second lookup's data
populates the episode-level overview and title. -/
theorem getMetadata_series_level_record (imdbId : String)
    (fr : JsResponse FindData) (fd : FindData) (t : TvResult) (rest : List TvResult)
    (hok : fr.ok = true) (hbody : fr.jsonBody = .ok fd)
    (htv : fd.tv_results = t :: rest) :
    (∀ episodeF : FetchOutcome EpisodeData,
      getMetadata .series imdbId none none (.ok fr) episodeF =
        .ok (some { imdbId := some imdbId, tmdbId := some t.id,
                    mediaType := .series, title := t.name,
                    year := parseYear t.first_air_date,
                    overview := t.overview })) ∧
    (∀ (s e : Nat) (er : JsResponse EpisodeData) (ed : EpisodeData),
      s ≠ 0 → e ≠ 0 → er.ok = true → er.jsonBody = .ok ed →
      getMetadata .series imdbId (some s) (some e) (.ok fr) (.ok er) =
        .ok (some { imdbId := some imdbId, tmdbId := some t.id,
                    mediaType := .series, title := t.name,
                    year := parseYear t.first_air_date,
                    overview := ed.overview,
                    season := some s, episode := some e,
                    episodeTitle := some ed.name })) := by
  have h2 : handleApiResponse fr "TMDB" = (.ok fd : Except JsErr FindData) := by
    simp [handleApiResponse, hok, hbody]
  constructor
  · intro episodeF
    simp only [getMetadata, liftFetch, h2, htv, truthyNat, Bool.false_and,
      Bool.false_eq_true, if_false]
  · intro s e er ed hs he herok herbody
    have h4 : handleApiResponse er "TMDB" = (.ok ed : Except JsErr EpisodeData) := by
      simp [handleApiResponse, herok, herbody]
    simp only [getMetadata, liftFetch, h2, htv, truthyNat, h4, decide_eq_true_eq]
    rw [if_pos]
    simp [hs, he]

/-- C8 witness: a concrete series find response resolves to the
series-level record with no episode fields. -/
theorem getMetadata_series_level_record_witness :
    getMetadata .series "tt1" none none
      (Except.ok ⟨200, Except.ok ⟨[], [⟨5, "S", some "1999-01-01", "so"⟩]⟩⟩)
      (Except.error "unused") =
      .ok (some { imdbId := some "tt1", tmdbId := some 5,
                  mediaType := .series, title := "S",
                  year := parseYear (some "1999-01-01"),
                  overview := "so" }) :=
  (getMetadata_series_level_record "tt1" ⟨200, Except.ok ⟨[], [⟨5, "S", some "1999-01-01", "so"⟩]⟩⟩
    ⟨[], [⟨5, "S", some "1999-01-01", "so"⟩]⟩ ⟨5, "S", some "1999-01-01", "so"⟩ []
    rfl rfl rfl).1 (Except.error "unused")

/-! ### C7 support: character shape of the pseudo-identifier -/

/-- A lowercase/uppercase hex digit or the minus sign `toString(16)`
emits for negative numbers. -/
def isHexOrDash (c : Char) : Bool :=
  isHexDigitJs c || c = '-'

theorem hexDigitChar_hexOrDash : ∀ k, k < 16 → isHexOrDash (hexDigitChar k) = true := by
  decide

theorem natToHexAux_hexOrDash (fuel : Nat) :
    ∀ (n : Nat) (acc : List Char), acc.all isHexOrDash = true →
      (natToHexAux fuel n acc).all isHexOrDash = true := by
  induction fuel with
  | zero => intro n acc hacc; simpa [natToHexAux] using hacc
  | succ fuel ih =>
    intro n acc hacc
    by_cases hn : n = 0
    · simpa [natToHexAux, hn] using hacc
    · simp only [natToHexAux, hn, if_false]
      apply ih
      simp only [List.all_cons, hacc, Bool.and_true]
      exact hexDigitChar_hexOrDash _ (Nat.mod_lt _ (by norm_num))

theorem natToHex_hexOrDash (n : Nat) : (natToHex n).toList.all isHexOrDash = true := by
  unfold natToHex
  by_cases hn : n = 0
  · simp only [hn, if_true]
    decide
  · simp only [hn, if_false]
    exact natToHexAux_hexOrDash n n [] rfl

theorem intToHexJs_hexOrDash (i : Int) :
    (intToHexJs i).toList.all isHexOrDash = true := by
  unfold intToHexJs
  by_cases hi : i < 0
  · simp only [hi, if_true]
    show ('-' :: (natToHex i.natAbs).toList).all isHexOrDash = true
    simp only [List.all_cons, natToHex_hexOrDash, Bool.and_true]
    decide
  · simp only [hi, if_false]
    exact natToHex_hexOrDash _

/-- C7 counterexample: for the request id `tt0133093` (no season or
episode, so the hashed text is the id itself) the rolling hash is
negative, so the rendered token contains a minus sign — it is 40
characters long but not 40 hexadecimal characters. -/
theorem infoHash_not_always_hex_counterexample :
    infoHashOf "tt0133093" = "0000000000000000000000000000000-7d4632f7" ∧
    (infoHashOf "tt0133093").toList.all isHexDigitJs = false :=
  ⟨by rfl, by rfl⟩

/-- C7 amended: the pseudo-identifier is a deterministic function
(`infoHashOf`) of the concatenated `externalId + season + episode`
string; it is always exactly 40 characters, each a hexadecimal digit or
the minus sign that `toString(16)` produces when the 32-bit rolling hash
is negative (so the token is not always all-hex). -/
theorem infoHash_40chars_hex_or_sign (s : String) :
    (infoHashOf s).length = 40 ∧
    (infoHashOf s).toList.all isHexOrDash = true := by
  constructor
  · unfold infoHashOf sliceTo padStartZero
    show (List.take 40 (List.replicate (40 - (intToHexJs (rollingHash s)).length) '0' ++
      (intToHexJs (rollingHash s)).toList)).length = 40
    have hlen : (intToHexJs (rollingHash s)).length =
        (intToHexJs (rollingHash s)).toList.length := rfl
    simp only [List.length_take, List.length_append, List.length_replicate, hlen]
    omega
  · unfold infoHashOf sliceTo padStartZero
    show (List.take 40 (List.replicate (40 - (intToHexJs (rollingHash s)).length) '0' ++
      (intToHexJs (rollingHash s)).toList)).all isHexOrDash = true
    rw [List.all_eq_true]
    intro c hc
    have hc2 := List.take_subset 40 _ hc
    rcases List.mem_append.1 hc2 with hrep | hhex
    · rw [List.eq_of_mem_replicate hrep]
      decide
    · exact List.all_eq_true.1 (intToHexJs_hexOrDash (rollingHash s)) c hhex

end Reviewero
